import Mathlib

/-!
Verification of the P-System membrane namespace registry and client
(`namespace-registry.py`, `namespace-client.py`) against their
natural-language specification.

The Python code is shallowly embedded: the registry's in-memory state
becomes an explicit record, every operation becomes a pure function on
that state, `time.time()` becomes an explicit integer-second parameter
(two consecutive calls inside one operation are modelled with the same
timestamp), Python dicts become insertion-ordered association lists, and
disk persistence becomes an explicit `disk` field holding the last
snapshot written by `_save_state`.  Network effects (peer propagation,
HTTP transport) are modelled at the boundary as explicit outcome values.
-/

/-- A Python `dict` with string keys: an insertion-ordered association
list.  Well-formed dicts have pairwise-distinct keys (`dictWF`). -/
abbrev PyDict (α : Type) : Type := List (String × α)

/-- Lookup, `d.get(k)` / `d[k]`: the first entry with the given key. -/
def dictGet {α : Type} (d : PyDict α) (k : String) : Option α :=
  (d.find? (fun p => p.1 == k)).map (·.2)

/-- Assignment `d[k] = v`: replace in place when the key is present
(Python dicts keep the original position on update), append otherwise. -/
def dictInsert {α : Type} (d : PyDict α) (k : String) (v : α) : PyDict α :=
  if d.any (fun p => p.1 == k) then
    d.map (fun p => if p.1 == k then (k, v) else p)
  else
    d ++ [(k, v)]

/-- Deletion `del d[k]` / `d.pop(k, None)`: drop every entry with the key
(at most one in a well-formed dict); a no-op when the key is absent. -/
def dictErase {α : Type} (d : PyDict α) (k : String) : PyDict α :=
  d.filter (fun p => p.1 != k)

/-- Embeds `d.values()`, in insertion order. -/
def dictValues {α : Type} (d : PyDict α) : List α :=
  d.map (·.2)

/-- Embeds `d.keys()`, in insertion order. -/
def dictKeys {α : Type} (d : PyDict α) : List String :=
  d.map (·.1)

/-- Number of entries carrying the key (1 or 0 in a well-formed dict). -/
def dictCountKey {α : Type} (d : PyDict α) (k : String) : Nat :=
  (d.filter (fun p => p.1 == k)).length

/-- Well-formedness: keys are pairwise distinct, as in a Python dict. -/
abbrev dictWF {α : Type} (d : PyDict α) : Prop :=
  (dictKeys d).Nodup

/-- Embeds `MembraneInfo` (namespace-registry.py lines 31-42): the registration
record.  `metadata` is an open string-keyed mapping; its values are
modelled as strings since no code inspects them.  Timestamps are modelled
as integer seconds. -/
structure MembraneInfo where
  id : String
  parent : Option String
  endpoint : String
  communication_mode : String
  health_check_url : Option String
  metadata : List (String × String)
  registered_at : Int
  last_heartbeat : Int
  status : String := "active"
deriving DecidableEq

/-- The persisted snapshot document written by `_save_state`
(namespace-registry.py lines 216-220): full membrane list, peer map and a
save timestamp. -/
structure Snapshot where
  membranes : List MembraneInfo
  peers : PyDict String
  saved_at : Int
deriving DecidableEq

/-- The `NamespaceRegistry` mutable state (namespace-registry.py lines
55-56), plus `disk`: the snapshot last written by `_save_state` during
this run (`none` when nothing was written yet). -/
structure RegState where
  membranes : PyDict MembraneInfo
  peers : PyDict String
  disk : Option Snapshot
deriving DecidableEq

/-- Embeds `_save_state` (lines 213-225): overwrite the snapshot wholesale with
the current table, peer map and the current time.  A write failure is
logged and ignored; the success path is modelled. -/
def save_state (now : Int) (st : RegState) : RegState :=
  { st with disk := some ⟨dictValues st.membranes, st.peers, now⟩ }

/-- Embeds `register_membrane` (lines 89-101): under the lock, server-stamp both
timestamps to call time, upsert by id, persist, propagate to peers
(a network effect, outside this state), and return `True`
unconditionally. -/
def register_membrane (st : RegState) (now : Int) (info : MembraneInfo) :
    RegState × Bool :=
  let info2 := { info with registered_at := now, last_heartbeat := now }
  let st2 := { st with membranes := dictInsert st.membranes info2.id info2 }
  (save_state now st2, true)

/-- Embeds `deregister_membrane` (lines 103-114): under the lock, if present
delete, persist and return `True`; otherwise return `False`. -/
def deregister_membrane (st : RegState) (now : Int) (mid : String) :
    RegState × Bool :=
  if (dictGet st.membranes mid).isSome then
    (save_state now { st with membranes := dictErase st.membranes mid }, true)
  else
    (st, false)

/-- Embeds `discover_membrane` (lines 116-119): lookup by id. -/
def discover_membrane (st : RegState) (mid : String) : Option MembraneInfo :=
  dictGet st.membranes mid

/-- Embeds `list_membranes` (lines 121-133): all values, then filter by parent
when given, then filter by communication mode when given. -/
def list_membranes (st : RegState) (parent : Option String)
    (communication_mode : Option String) : List MembraneInfo :=
  let ms := dictValues st.membranes
  let ms := match parent with
    | none => ms
    | some p => ms.filter (fun m => m.parent == some p)
  match communication_mode with
  | none => ms
  | some c => ms.filter (fun m => m.communication_mode == c)

/-- Embeds `heartbeat` (lines 135-142): if present, bump `last_heartbeat` to now,
force status to active, return `True`; otherwise `False`.  No persistence
happens on this path. -/
def heartbeat (st : RegState) (now : Int) (mid : String) : RegState × Bool :=
  match dictGet st.membranes mid with
  | some m =>
    let m2 := { m with last_heartbeat := now, status := "active" }
    ({ st with membranes := dictInsert st.membranes mid m2 }, true)
  | none => (st, false)

/-- The `/peer-sync` register action (lines 334-336): the handler writes
the received record straight into `registry.membranes`, with no lock, no
timestamp re-stamping, no persistence and no re-propagation. -/
def peer_sync_register (st : RegState) (m : MembraneInfo) : RegState :=
  { st with membranes := dictInsert st.membranes m.id m }

/-- The `/peer-sync` deregister action (lines 337-339):
`registry.membranes.pop(id, None)`, with no lock and no persistence. -/
def peer_sync_deregister (st : RegState) (mid : String) : RegState :=
  { st with membranes := dictErase st.membranes mid }

/-- The marking phase of one `_cleanup_worker` tick (lines 158-163): every
record whose heartbeat is older than `2 * heartbeat_interval` is set to
unhealthy and its id collected in `stale_membranes`. -/
def sweepMark (H now : Int) (d : PyDict MembraneInfo) :
    PyDict MembraneInfo × List String :=
  (d.map (fun p =>
      if now - p.2.last_heartbeat > H * 2 then
        (p.1, { p.2 with status := "unhealthy" })
      else p),
   (d.filter (fun p => decide (now - p.2.last_heartbeat > H * 2))).map
     Prod.fst)

/-- The deletion phase of one `_cleanup_worker` tick (lines 165-169): a
record is deleted when its heartbeat is strictly older than
`5 * heartbeat_interval`. -/
def sweepDelete (H now : Int) (d : PyDict MembraneInfo) :
    PyDict MembraneInfo :=
  d.filter (fun p => !(decide (now - p.2.last_heartbeat > H * 5)))

/-- One tick of `_cleanup_worker` (lines 150-176), under the lock: mark
stale records unhealthy, delete very old ones, and persist only when the
marking phase collected at least one stale id. -/
def cleanup_tick (H now : Int) (st : RegState) : RegState :=
  let marked := sweepMark H now st.membranes
  let d2 := sweepDelete H now marked.1
  let st2 := { st with membranes := d2 }
  if marked.2.isEmpty then st2 else save_state now st2

/-- One element of the persisted `membranes` list as found on disk: either
it reconstructs into a `MembraneInfo`, or `MembraneInfo(**data)` raises
(wrong or missing keys). -/
inductive SnapshotEntry where
  | valid (m : MembraneInfo)
  | invalid
deriving DecidableEq

/-- The state file as `_load_state` sees it: absent, present but not
valid JSON, or parsed into a membrane entry list and a peer map. -/
inductive StateFile where
  | missing
  | unparsable
  | parsed (entries : List SnapshotEntry) (peers : PyDict String)
deriving DecidableEq

/-- The reconstruction loop of `_load_state` (lines 204-206): insert the
entries one by one; the first invalid entry raises, leaving the entries
inserted so far in the table. -/
def loadEntries : List SnapshotEntry → PyDict MembraneInfo →
    Except (PyDict MembraneInfo) (PyDict MembraneInfo)
  | [], acc => .ok acc
  | .valid m :: rest, acc => loadEntries rest (dictInsert acc m.id m)
  | .invalid :: _, acc => .error acc

/-- Embeds `_load_state` (lines 196-211): the whole body is wrapped in one
try/except whose handler only logs.  A missing file or a JSON parse
failure leaves the table empty; a reconstruction failure mid-loop keeps
the entries already inserted and never reaches the `peers` assignment. -/
def load_state (f : StateFile) : RegState :=
  match f with
  | .missing => ⟨[], [], none⟩
  | .unparsable => ⟨[], [], none⟩
  | .parsed entries peers =>
    match loadEntries entries [] with
    | .ok tbl => ⟨tbl, peers, none⟩
    | .error tbl => ⟨tbl, [], none⟩

/-- Python `s.split(sep)` for a one-character separator, on the char
list: `"".split(sep)` is `[""]`, empty fields are kept. -/
def splitChar (sep : Char) : List Char → List (List Char)
  | [] => [[]]
  | c :: cs =>
    if c = sep then
      [] :: splitChar sep cs
    else
      match splitChar sep cs with
      | [] => [[c]]
      | g :: gs => (c :: g) :: gs

/-- Python `s.split(sep)` for the one-character separators used by the
handlers (`?`, `&`, `=`, `/`). -/
def strSplit (sep : Char) (s : String) : List String :=
  (splitChar sep s.toList).map (fun l => String.mk l)

/-- Python `"sep".join(parts)`, used to undo all but the first split —
`s.split(sep, 1)[1]` is `joinWith sep (strSplit sep s).tail`. -/
def joinWith (sep : String) : List String → String
  | [] => ""
  | [x] => x
  | x :: xs => x ++ sep ++ joinWith sep xs

/-- Prefix test on char lists, for Python `path.startswith(prefix)`. -/
def listBeginsWith : List Char → List Char → Bool
  | [], _ => true
  | _ :: _, [] => false
  | p :: ps, c :: cs => p = c && listBeginsWith ps cs

/-- Python `s.startswith(prefix)`. -/
def strBeginsWith (pre s : String) : Bool :=
  listBeginsWith pre.toList s.toList

/-- Response of a GET endpoint of `RegistryHandler`: a JSON membrane
array, a single membrane record, the status object, or a plain-text HTTP
error. -/
inductive GetResponse where
  | jsonList (ms : List MembraneInfo)
  | jsonRecord (m : MembraneInfo)
  | jsonStatus (registry_id : String) (membrane_count peer_count : Nat)
      (uptime : Int)
  | httpError (code : Nat) (msg : String)
deriving DecidableEq

/-- Embeds `urllib.parse.parse_qs` as used by `_handle_list` (line 307),
restricted to first occurrences: split on `&`, split each item on the
first `=`, and drop items with no `=` or an empty value
(`keep_blank_values` is off).  Percent-decoding is not modelled; the
claims only use undecorated values. -/
def parseQs (qs : String) : List (String × String) :=
  (strSplit '&' qs).filterMap (fun item =>
    match strSplit '=' item with
    | [] => none
    | [_] => none
    | k :: vs =>
      let v := joinWith "=" vs
      if v = "" then none else some (k, v))

/-- Embeds `query.get(key, [None])[0]`: the first value bound to the key. -/
def queryFirst (q : List (String × String)) (k : String) : Option String :=
  (q.find? (fun p => p.1 == k)).map (·.2)

/-- Embeds `_handle_list` (lines 304-314): parse the query string out of the
request path (`path.split("?", 1)[1]` when a `?` is present) and answer
with the filtered membrane list. -/
def handle_list (st : RegState) (path : String) : GetResponse :=
  let qs := match strSplit '?' path with
    | [] => ""
    | [_] => ""
    | _ :: rest => joinWith "?" rest
  let q := parseQs qs
  .jsonList
    (list_membranes st (queryFirst q "parent") (queryFirst q "communication_mode"))

/-- Embeds `_handle_status` (lines 316-326): counts plus an uptime computed from
the registration time of the record named like the registry itself,
defaulting to now. -/
def handle_status (st : RegState) (registry_id : String) (now : Int) :
    GetResponse :=
  let reg_at := match dictGet st.membranes registry_id with
    | some m => m.registered_at
    | none => now
  .jsonStatus registry_id st.membranes.length st.peers.length (now - reg_at)

/-- Embeds `do_GET` (lines 258-267): exact match on `/status`, prefix match on
`/discover/`, exact match on `/list` — the full request path, query
string included, is what is compared — and 404 otherwise. -/
def do_GET (st : RegState) (registry_id : String) (now : Int)
    (path : String) : GetResponse :=
  if path = "/status" then
    handle_status st registry_id now
  else if strBeginsWith "/discover/" path then
    let mid := (strSplit '/' path).getLastD ""
    match discover_membrane st mid with
    | some m => .jsonRecord m
    | none => .httpError 404 "Membrane not found"
  else if path = "/list" then
    handle_list st path
  else
    .httpError 404 "Not Found"

/-- Outcome of one client HTTP round-trip (`_post`): the registry
answered `{"success": s}`, or the request raised (connection error,
timeout, non-2xx status). -/
inductive PostOutcome where
  | reply (success : Bool)
  | raised
deriving DecidableEq

/-- The part of `NamespaceClient` state the claims reason about: whether
the background heartbeat thread is running (namespace-client.py line
42). -/
structure ClientState where
  heartbeat_running : Bool
deriving DecidableEq

/-- Embeds `_start_heartbeat` (namespace-client.py lines 275-281): start the
thread only when it is not already running; either way the flag ends up
set. -/
def start_heartbeat (st : ClientState) : ClientState :=
  if st.heartbeat_running then st else { heartbeat_running := true }

/-- Embeds `_stop_heartbeat` (lines 283-287): clear the flag, then join with a
bounded wait. -/
def stop_heartbeat (st : ClientState) : ClientState :=
  { st with heartbeat_running := false }

/-- Embeds `NamespaceClient.register` (lines 48-83): on a successful reply start
auto-heartbeat when enabled and return the reported success; a raised
request is caught and returns `False` with the state untouched. -/
def clientRegister (auto_heartbeat : Bool) (st : ClientState)
    (o : PostOutcome) : ClientState × Bool :=
  match o with
  | .raised => (st, false)
  | .reply s =>
    if s then
      ((if auto_heartbeat then start_heartbeat st else st), true)
    else
      (st, false)

/-- Embeds `NamespaceClient.deregister` (lines 85-101): stop the heartbeat loop
first, then post; a raised request is caught and returns `False`, and an
unsuccessful reply returns `False` — in every case the heartbeat loop has
already been stopped. -/
def clientDeregister (st : ClientState) (o : PostOutcome) :
    ClientState × Bool :=
  let st2 := stop_heartbeat st
  match o with
  | .raised => (st2, false)
  | .reply s => (st2, s)

/-- Embeds `NamespaceClient.heartbeat` (lines 194-201): one best-effort call;
exceptions are caught inside and turned into `False`, so this function is
total and never propagates a fault. -/
def clientHeartbeat (o : PostOutcome) : Bool :=
  match o with
  | .reply s => s
  | .raised => false

/-- The try-block of one `_heartbeat_worker` iteration (lines 292-294):
call `heartbeat()` — which never raises — then sleep the full interval.
`Except.error` would be reached only if the body itself raised. -/
def heartbeat_worker_body (interval : Nat) (o : PostOutcome) :
    Except Unit Nat :=
  let _ := clientHeartbeat o
  Except.ok interval

/-- One `_heartbeat_worker` iteration (lines 291-297) reduced to the
delay it sleeps before the next attempt: the interval from the try-block,
or 5 seconds from the except-handler. -/
def heartbeat_worker_delay (interval : Nat) (o : PostOutcome) : Nat :=
  match heartbeat_worker_body interval o with
  | .ok d => d
  | .error _ => 5

/-- Python's builtin `hash` on `str` is a keyed hash (SipHash) whose key
is a fresh random per-process secret unless `PYTHONHASHSEED` pins it, so
its value for the same string differs between runs.  Modelled as an
explicit mixing function of the per-process seed and the string; the
exact mixing stands in for SipHash, the dependence on the seed is the
modelled property. -/
def pyStrHash (seed : Nat) (s : String) : Nat :=
  s.toList.foldl (fun a c => (a * 31 + c.toNat) % (2 ^ 61 - 1))
    (seed % (2 ^ 61 - 1))

/-- Embeds `_auto_detect_endpoint` (namespace-client.py lines 203-216): fixed
path keyed by id for shared-volume (and for unknown modes), a port in
`9000 + hash(id) % 1000` for network, a fixed socket path for ipc. -/
def auto_detect_endpoint (seed : Nat) (membrane_id : String)
    (communication_mode : String) : String :=
  if communication_mode = "shared-volume" then
    "/opt/membrane/communication/inbox/" ++ membrane_id
  else if communication_mode = "network" then
    let port := 9000 + pyStrHash seed membrane_id % 1000
    "http://localhost:" ++ toString port
  else if communication_mode = "ipc" then
    "/tmp/membrane_" ++ membrane_id ++ ".sock"
  else
    "/opt/membrane/communication/inbox/" ++ membrane_id

/-- An event in the lock-discipline trace of a registry operation:
entering `with self.lock`, leaving it, or touching (reading or writing)
the shared `self.membranes` table. -/
inductive LockEvent where
  | acquire
  | release
  | touch
deriving DecidableEq

/-- Every table touch happens at positive lock depth (the lock is
reentrant, hence a depth counter rather than a flag). -/
def touchesUnderLock : Nat → List LockEvent → Bool
  | _, [] => true
  | depth, .acquire :: es => touchesUnderLock (depth + 1) es
  | depth, .release :: es => touchesUnderLock (depth - 1) es
  | depth, .touch :: es => decide (0 < depth) && touchesUnderLock depth es

/-- An operation holds the lock around all its table accesses when its
trace, started outside the lock, touches only under it. -/
def lockedThroughout (es : List LockEvent) : Bool :=
  touchesUnderLock 0 es

/-- Trace of `register_membrane` (lines 89-101): `with self.lock` wraps
the upsert (line 94) and the `_save_state` read of the table (line 97,
reading `self.membranes.values()` at line 217). -/
def registerTrace : List LockEvent :=
  [.acquire, .touch, .touch, .release]

/-- Trace of `deregister_membrane` (lines 103-114), present-id branch:
membership test (106), deletion (107), `_save_state` table read (109). -/
def deregisterTrace : List LockEvent :=
  [.acquire, .touch, .touch, .touch, .release]

/-- Trace of `discover_membrane` (lines 116-119): one lookup under the
lock. -/
def discoverTrace : List LockEvent :=
  [.acquire, .touch, .release]

/-- Trace of `list_membranes` (lines 121-133): one snapshot of the values
under the lock (the filters run on the copied list). -/
def listTrace : List LockEvent :=
  [.acquire, .touch, .release]

/-- Trace of `heartbeat` (lines 135-142): membership test (138), two
field writes (139, 140), all under the lock. -/
def heartbeatTrace : List LockEvent :=
  [.acquire, .touch, .touch, .touch, .release]

/-- Trace of one sweeper tick (lines 157-173): marking scan (159),
deletion scan (166), `_save_state` table read (173), under one `with
self.lock`. -/
def sweeperTrace : List LockEvent :=
  [.acquire, .touch, .touch, .touch, .release]

/-- Trace of the `/peer-sync` register action (line 336): the handler
writes `registry.membranes[id]` directly, with no `with registry.lock`
anywhere in `_handle_peer_sync`. -/
def peerSyncRegisterTrace : List LockEvent :=
  [.touch]

/-- Trace of the `/peer-sync` deregister action (line 339):
`registry.membranes.pop(id, None)` with no lock. -/
def peerSyncDeregisterTrace : List LockEvent :=
  [.touch]

/-- A concrete registered record, used by the closed counterexample and
witness theorems. -/
def sampleInfo : MembraneInfo :=
  { id := "m1"
    parent := some "root"
    endpoint := "/opt/membrane/communication/inbox/m1"
    communication_mode := "shared-volume"
    health_check_url := none
    metadata := []
    registered_at := 0
    last_heartbeat := 0
    status := "active" }

/-- A registry state holding just `sampleInfo`, nothing persisted yet. -/
def sampleState : RegState :=
  ⟨[("m1", sampleInfo)], [], none⟩

/-- A snapshot as `_save_state` would have written it earlier. -/
def sampleSnap : Snapshot :=
  ⟨[sampleInfo], [], 0⟩

/-- A registry state holding `sampleInfo` with `sampleSnap` on disk. -/
def sampleStateDisk : RegState :=
  ⟨[("m1", sampleInfo)], [], some sampleSnap⟩

/-- A record whose id is the empty string. -/
def emptyIdInfo : MembraneInfo :=
  { sampleInfo with id := "", parent := none }

theorem find?_key_eq_none {α : Type} {d : PyDict α} {k : String}
    (h : k ∉ dictKeys d) : d.find? (fun p => p.1 == k) = none := by
  rw [List.find?_eq_none]
  intro p hp hbeq
  exact h (List.mem_map.mpr ⟨p, hp, eq_of_beq hbeq⟩)

theorem dictGet_eq_none_of_not_mem {α : Type} {d : PyDict α} {k : String}
    (h : k ∉ dictKeys d) : dictGet d k = none := by
  simp [dictGet, find?_key_eq_none h]

theorem not_mem_keys_of_any_eq_false {α : Type} {d : PyDict α} {k : String}
    (h : ¬(d.any fun p => p.1 == k) = true) : k ∉ dictKeys d := by
  intro hmem
  apply h
  rw [List.any_eq_true]
  simp only [dictKeys, List.mem_map] at hmem
  obtain ⟨p, hpmem, hpk⟩ := hmem
  exact ⟨p, hpmem, by simp [hpk]⟩

theorem dictGet_insert_self {α : Type} (d : PyDict α) (k : String) (v : α) :
    dictGet (dictInsert d k v) k = some v := by
  unfold dictInsert
  split
  case isTrue h =>
    induction d with
    | nil => simp at h
    | cons p d ih =>
      by_cases hp : (p.1 == k) = true
      · simp [dictGet, List.find?, hp]
      · have hp2 : (p.1 == k) = false := by simpa using hp
        simp only [List.any_cons, hp2, Bool.false_or] at h
        simpa [dictGet, List.find?, hp2] using ih h
  case isFalse h =>
    have hk : k ∉ dictKeys d := not_mem_keys_of_any_eq_false h
    simp only [dictGet]
    rw [List.find?_append, find?_key_eq_none hk]
    simp [List.find?]

theorem dictCountKey_eq_zero_of_not_mem {α : Type} {d : PyDict α}
    {k : String} (h : k ∉ dictKeys d) : dictCountKey d k = 0 := by
  induction d with
  | nil => rfl
  | cons p d ih =>
    simp only [dictKeys, List.map_cons, List.mem_cons, not_or] at h
    have hp : (p.1 == k) = false := by
      simp only [beq_eq_false_iff_ne, ne_eq]
      exact fun hk => h.1 hk.symm
    simp only [dictCountKey, List.filter_cons, hp]
    exact ih h.2

theorem filter_key_map_update_eq_nil {α : Type} {d : PyDict α} {k : String}
    (v : α) (hk : k ∉ dictKeys d) :
    ((d.map (fun p => if p.1 == k then (k, v) else p)).filter
      (fun p => p.1 == k)) = [] := by
  induction d with
  | nil => rfl
  | cons q d ih =>
    simp only [dictKeys, List.map_cons, List.mem_cons, not_or] at hk
    have hq : (q.1 == k) = false := by
      simp only [beq_eq_false_iff_ne, ne_eq]
      exact fun h => hk.1 h.symm
    have hfq : (if (q.1 == k) = true then (k, v) else q) = q := by
      simp [hq]
    rw [List.map_cons, hfq, List.filter_cons]
    simp only [hq]
    exact ih hk.2

theorem dictGet_sweepMark (H now : Int) (d : PyDict MembraneInfo)
    (k : String) :
    dictGet (sweepMark H now d).1 k =
      (dictGet d k).map (fun m =>
        if now - m.last_heartbeat > H * 2 then
          { m with status := "unhealthy" }
        else m) := by
  induction d with
  | nil => rfl
  | cons p d ih =>
    simp only [sweepMark, List.map_cons] at ih ⊢
    by_cases hk : (p.1 == k) = true
    · by_cases hc : now - p.2.last_heartbeat > H * 2
      · simp [dictGet, List.find?_cons, hk, hc]
      · simp [dictGet, List.find?_cons, hk, hc]
    · have hk2 : (p.1 == k) = false := by simpa using hk
      by_cases hc : now - p.2.last_heartbeat > H * 2
      · simpa [dictGet, List.find?_cons, hk2, hc] using ih
      · simpa [dictGet, List.find?_cons, hk2, hc] using ih

theorem sweepMark_keys (H now : Int) (d : PyDict MembraneInfo) :
    dictKeys (sweepMark H now d).1 = dictKeys d := by
  induction d with
  | nil => rfl
  | cons p d ih =>
    simp only [sweepMark, List.map_cons, dictKeys] at ih ⊢
    by_cases hc : now - p.2.last_heartbeat > H * 2
    · simpa [hc] using ih
    · simpa [hc] using ih

theorem dictGet_filter_eq_none {α : Type} (q : String × α → Bool)
    {d : PyDict α} {k : String} (h : dictGet d k = none) :
    dictGet (d.filter q) k = none := by
  have hfind : d.find? (fun p => p.1 == k) = none := by
    cases hfd : d.find? (fun p => p.1 == k) with
    | none => rfl
    | some p => simp [dictGet, hfd] at h
  rw [List.find?_eq_none] at hfind
  have hall : ∀ p ∈ d.filter q, ¬((p.1 == k) = true) :=
    fun p hp => hfind p (List.mem_of_mem_filter hp)
  simp [dictGet, List.find?_eq_none.mpr hall]

theorem dictGet_sweepDelete (H now : Int) {d : PyDict MembraneInfo}
    (hwf : dictWF d) (k : String) :
    dictGet (sweepDelete H now d) k =
      (dictGet d k).bind (fun m =>
        if now - m.last_heartbeat > H * 5 then none else some m) := by
  induction d with
  | nil => rfl
  | cons p d ih =>
    simp only [dictWF, dictKeys, List.map_cons, List.nodup_cons] at hwf
    have ih2 := ih hwf.2
    by_cases hc : now - p.2.last_heartbeat > H * 5
    · have hb : (!decide (now - p.2.last_heartbeat > H * 5)) = false := by
        simp [hc]
      by_cases hk : (p.1 == k) = true
      · have hknd : k ∉ dictKeys d := by
          rw [← eq_of_beq hk]; exact hwf.1
        have hnone : dictGet d k = none := dictGet_eq_none_of_not_mem hknd
        have hdel : dictGet (sweepDelete H now d) k = none :=
          dictGet_filter_eq_none _ hnone
        simp only [sweepDelete] at hdel
        simp only [sweepDelete, List.filter_cons, hb]
        simp [dictGet, List.find?_cons, hk, hc, hdel]
        intro a b hab _ hak
        exact hknd (List.mem_map.mpr ⟨(a, b), hab, hak⟩)
      · have hk2 : (p.1 == k) = false := by simpa using hk
        simp only [sweepDelete] at ih2
        simp only [sweepDelete, List.filter_cons, hb]
        simpa [dictGet, List.find?_cons, hk2] using ih2
    · have hb : (!decide (now - p.2.last_heartbeat > H * 5)) = true := by
        simp [hc]
      by_cases hk : (p.1 == k) = true
      · simp only [sweepDelete, List.filter_cons, hb]
        simp [dictGet, List.find?_cons, hk, hc]
      · have hk2 : (p.1 == k) = false := by simpa using hk
        simp only [sweepDelete] at ih2
        simp only [sweepDelete, List.filter_cons, hb]
        simpa [dictGet, List.find?_cons, hk2] using ih2

theorem cleanup_tick_membranes (H now : Int) (st : RegState) :
    (cleanup_tick H now st).membranes =
      sweepDelete H now (sweepMark H now st.membranes).1 := by
  simp only [cleanup_tick, save_state]
  split <;> rfl

theorem dictCountKey_insert {α : Type} {d : PyDict α} (hwf : dictWF d)
    (k : String) (v : α) : dictCountKey (dictInsert d k v) k = 1 := by
  unfold dictInsert
  split
  case isTrue h =>
    induction d with
    | nil => simp at h
    | cons p d ih =>
      simp only [dictWF, dictKeys, List.map_cons, List.nodup_cons] at hwf
      by_cases hp : (p.1 == k) = true
      · have hk : k ∉ dictKeys d := by
          have h1 := hwf.1
          rw [eq_of_beq hp] at h1
          exact h1
        have hnil := filter_key_map_update_eq_nil (d := d) (k := k) v hk
        have hfp : (if (p.1 == k) = true then (k, v) else p) = (k, v) := by
          simp [hp]
        simp only [dictCountKey, List.map_cons, hfp, List.filter_cons,
          beq_self_eq_true, hnil]
        rfl
      · have hp2 : (p.1 == k) = false := by simpa using hp
        simp only [List.any_cons, hp2, Bool.false_or] at h
        have hwf2 : dictWF d := hwf.2
        have hcount := ih hwf2 h
        have hfp : (if (p.1 == k) = true then (k, v) else p) = p := by
          simp [hp2]
        rw [List.map_cons, hfp]
        simpa [dictCountKey, List.filter_cons, hp2] using hcount
  case isFalse h =>
    have hk : k ∉ dictKeys d := not_mem_keys_of_any_eq_false h
    have hz := dictCountKey_eq_zero_of_not_mem (d := d) hk
    simp only [dictCountKey] at hz ⊢
    rw [List.filter_append, List.length_append, hz]
    simp [List.filter]

theorem loadEntries_map_valid :
    ∀ (ms : List MembraneInfo) (rest : List SnapshotEntry)
      (acc : PyDict MembraneInfo),
    loadEntries (ms.map .valid ++ rest) acc =
      loadEntries rest (ms.foldl (fun a m => dictInsert a m.id m) acc)
  | [], _, _ => rfl
  | m :: ms, rest, acc => by
    simp only [List.map_cons, List.cons_append, loadEntries,
      List.foldl_cons]
    exact loadEntries_map_valid ms rest _

/-- C1: the claim promises a filtered JSON array for every `/list`
request, query parameters included; the code compares the whole request
path — query string and all — against the literal `"/list"`, so
`GET /list?parent=root` answers `404 Not Found` while the bare
`GET /list` does produce the array.  The query-parsing code inside the
list handler is unreachable. -/
theorem C1_list_query_gets_404 :
    do_GET sampleState "reg1" 100 "/list?parent=root" =
      .httpError 404 "Not Found" ∧
    do_GET sampleState "reg1" 100 "/list" = .jsonList [sampleInfo] := by
  decide

/-- C2 counterexample: the `/peer-sync` register action touches the
membrane table at lock depth zero — `_handle_peer_sync` writes
`registry.membranes[id]` with no `with registry.lock` around it. -/
theorem C2_peer_sync_unlocked :
    lockedThroughout peerSyncRegisterTrace = false := by decide

/-- C2 amended: every `NamespaceRegistry` method (register, deregister,
discover, list, heartbeat) and the sweeper hold the reentrant lock for
their full duration, but the peer-sync upsert and delete applied by the
HTTP handler access the table without acquiring the lock at all. -/
theorem C2_lock_discipline :
    lockedThroughout registerTrace = true ∧
    lockedThroughout deregisterTrace = true ∧
    lockedThroughout discoverTrace = true ∧
    lockedThroughout listTrace = true ∧
    lockedThroughout heartbeatTrace = true ∧
    lockedThroughout sweeperTrace = true ∧
    lockedThroughout peerSyncRegisterTrace = false ∧
    lockedThroughout peerSyncDeregisterTrace = false := by decide

/-- C3 counterexample: with `heartbeat_interval = 30` and
`elapsed = 150 = 5 * 30` exactly, the claim says the record is deleted;
the sweep's strict `>` comparison keeps it and only marks it unhealthy. -/
theorem C3_boundary_survives :
    (150 : Int) - sampleInfo.last_heartbeat = 30 * 5 ∧
    dictGet (cleanup_tick 30 150 sampleState).membranes "m1" =
      some { sampleInfo with status := "unhealthy" } := by decide

/-- C3 amended: at each sweep a record is deleted iff
`elapsed > 5 * H` strictly, and a surviving record is set to unhealthy
iff `elapsed > 2 * H`, keeping its previous status otherwise; in
particular `elapsed` exactly `5 * H` survives as unhealthy. -/
theorem C3_sweep_spec (H now : Int) (st : RegState)
    (hwf : dictWF st.membranes) (mid : String) :
    dictGet (cleanup_tick H now st).membranes mid =
      (match dictGet st.membranes mid with
        | none => none
        | some m =>
          if now - m.last_heartbeat > H * 5 then none
          else if now - m.last_heartbeat > H * 2 then
            some { m with status := "unhealthy" }
          else some m) := by
  rw [cleanup_tick_membranes]
  have hwf2 : dictWF (sweepMark H now st.membranes).1 := by
    unfold dictWF
    rw [sweepMark_keys]
    exact hwf
  rw [dictGet_sweepDelete H now hwf2, dictGet_sweepMark]
  cases hget : dictGet st.membranes mid with
  | none => rfl
  | some m =>
    by_cases h2 : now - m.last_heartbeat > H * 2
    · by_cases h5 : now - m.last_heartbeat > H * 5
      · simp [h2, h5]
      · simp [h2, h5]
    · by_cases h5 : now - m.last_heartbeat > H * 5
      · simp [h2, h5]
      · simp [h2, h5]

/-- C3 witness: the sweep characterization applied at a concrete state
and boundary time. -/
theorem C3_sweep_spec_witness :
    dictWF sampleState.membranes ∧
    dictGet (cleanup_tick 30 150 sampleState).membranes "m1" =
      (match dictGet sampleState.membranes "m1" with
        | none => none
        | some m =>
          if (150 : Int) - m.last_heartbeat > 30 * 5 then none
          else if (150 : Int) - m.last_heartbeat > 30 * 2 then
            some { m with status := "unhealthy" }
          else some m) :=
  ⟨by decide, C3_sweep_spec 30 150 sampleState (by decide) "m1"⟩

/-- C4 counterexample: a heartbeat call mutates the table (the record's
`last_heartbeat` moves to 100) yet leaves the persisted snapshot exactly
as it was, so the snapshot on disk no longer matches the table. -/
theorem C4_heartbeat_not_persisted :
    (heartbeat sampleStateDisk 100 "m1").1.membranes ≠
      sampleStateDisk.membranes ∧
    (heartbeat sampleStateDisk 100 "m1").1.disk = sampleStateDisk.disk ∧
    (heartbeat sampleStateDisk 100 "m1").1.disk ≠
      some ⟨dictValues (heartbeat sampleStateDisk 100 "m1").1.membranes,
        (heartbeat sampleStateDisk 100 "m1").1.peers, 100⟩ := by decide

/-- C4 amended: register always persists the new snapshot and deregister
persists when the id was present, but heartbeat and the peer-sync
upsert/delete mutate the in-memory table without writing the snapshot. -/
theorem C4_persistence (st : RegState) (now : Int) (info : MembraneInfo)
    (mid : String) (m : MembraneInfo) :
    (register_membrane st now info).1.disk =
      some ⟨dictValues (register_membrane st now info).1.membranes,
        st.peers, now⟩ ∧
    (deregister_membrane st now mid).1.disk =
      (if (dictGet st.membranes mid).isSome then
        some ⟨dictValues (dictErase st.membranes mid), st.peers, now⟩
      else st.disk) ∧
    (heartbeat st now mid).1.disk = st.disk ∧
    (peer_sync_register st m).disk = st.disk ∧
    (peer_sync_deregister st mid).disk = st.disk := by
  refine ⟨rfl, ?_, ?_, rfl, rfl⟩
  · by_cases h : (dictGet st.membranes mid).isSome <;>
      simp [deregister_membrane, save_state, h]
  · cases h : dictGet st.membranes mid <;> simp [heartbeat, h]

/-- C5: register returns true unconditionally; afterwards the table holds
exactly one record under the registered id, carrying the latest call's
fields with both timestamps server-stamped to the call time. -/
theorem C5_register_upsert (st : RegState) (now : Int)
    (info : MembraneInfo) (hwf : dictWF st.membranes) :
    (register_membrane st now info).2 = true ∧
    dictGet (register_membrane st now info).1.membranes info.id =
      some { info with registered_at := now, last_heartbeat := now } ∧
    dictCountKey (register_membrane st now info).1.membranes info.id
      = 1 := by
  refine ⟨rfl, ?_, ?_⟩
  · exact dictGet_insert_self st.membranes info.id _
  · exact dictCountKey_insert hwf info.id _

/-- C5 witness: registering a fresh record over a well-formed table. -/
theorem C5_register_upsert_witness :
    dictWF sampleState.membranes ∧
    ((register_membrane sampleState 50 emptyIdInfo).2 = true ∧
     dictGet (register_membrane sampleState 50 emptyIdInfo).1.membranes
       emptyIdInfo.id =
       some { emptyIdInfo with registered_at := 50, last_heartbeat := 50 } ∧
     dictCountKey (register_membrane sampleState 50 emptyIdInfo).1.membranes
       emptyIdInfo.id = 1) :=
  ⟨by decide, C5_register_upsert sampleState 50 emptyIdInfo (by decide)⟩

/-- C6 counterexample: registering a record whose id is the empty string
succeeds and stores the record under the empty key — no operation of the
core rejects an empty id. -/
theorem C6_empty_id_accepted :
    (register_membrane ⟨[], [], none⟩ 7 emptyIdInfo).2 = true ∧
    dictGet (register_membrane ⟨[], [], none⟩ 7 emptyIdInfo).1.membranes ""
      = some { emptyIdInfo with registered_at := 7, last_heartbeat := 7 } := by
    decide

/-- C6 amended: the core performs no id validation at all — register
succeeds and stores the record for every id, the empty string included,
and deregister/heartbeat/discover are decided purely by table membership,
never by id shape. -/
theorem C6_no_id_validation (st : RegState) (now : Int)
    (info : MembraneInfo) (mid : String) :
    (register_membrane st now info).2 = true ∧
    (dictGet (register_membrane st now info).1.membranes info.id).isSome
      = true ∧
    (heartbeat st now mid).2 = (dictGet st.membranes mid).isSome ∧
    (deregister_membrane st now mid).2 =
      (dictGet st.membranes mid).isSome ∧
    discover_membrane st mid = dictGet st.membranes mid := by
  refine ⟨rfl, ?_, ?_, ?_, rfl⟩
  · show (dictGet (dictInsert st.membranes info.id
      { info with registered_at := now, last_heartbeat := now })
      info.id).isSome = true
    rw [dictGet_insert_self]
    rfl
  · cases h : dictGet st.membranes mid <;> simp [heartbeat, h]
  · by_cases h : (dictGet st.membranes mid).isSome <;>
      simp [deregister_membrane, h]

/-- C7 counterexample: a failed heartbeat attempt — a `success: false`
reply, or even a raised request, which `heartbeat()` swallows — is
followed by a full `heartbeat_interval` (25) sleep, not the claimed
5-second retry. -/
theorem C7_failed_attempt_waits_full_interval :
    clientHeartbeat (.reply false) = false ∧
    heartbeat_worker_delay 25 (.reply false) = 25 ∧
    clientHeartbeat .raised = false ∧
    heartbeat_worker_delay 25 .raised = 25 := by decide

/-- C7 amended: the worker sleeps the full `heartbeat_interval` after
every attempt, successful or failed — `heartbeat()` catches its own
transport errors and returns false, so the worker's 5-second
except-branch is never reached by a failed heartbeat. -/
theorem C7_delay_always_interval (interval : Nat) (o : PostOutcome) :
    heartbeat_worker_delay interval o = interval := rfl

/-- C8 counterexample: a snapshot whose first entry reconstructs and
whose second does not leaves the first entry in the table — load failure
can yield a partially loaded table, not the claimed empty one (and the
peer map stays empty because the failure aborts before it is read). -/
theorem C8_partial_load :
    (load_state (.parsed [.valid sampleInfo, .invalid]
      [("peerA", "http://peer")])).membranes = [("m1", sampleInfo)] ∧
    (load_state (.parsed [.valid sampleInfo, .invalid]
      [("peerA", "http://peer")])).peers = [] := by decide

/-- C8 amended: a missing or unparsable file yields an empty state
(non-fatal); a file whose entries all reconstruct yields the full table
and peer map; a reconstruction failure keeps exactly the entries before
the failing one and leaves the peer map empty. -/
theorem C8_load_behavior (ms : List MembraneInfo)
    (rest : List SnapshotEntry) (peers : PyDict String) :
    load_state .missing = ⟨[], [], none⟩ ∧
    load_state .unparsable = ⟨[], [], none⟩ ∧
    load_state (.parsed (ms.map .valid) peers) =
      ⟨ms.foldl (fun a m => dictInsert a m.id m) [], peers, none⟩ ∧
    load_state (.parsed (ms.map .valid ++ .invalid :: rest) peers) =
      ⟨ms.foldl (fun a m => dictInsert a m.id m) [], [], none⟩ := by
  have h1 := loadEntries_map_valid ms [] []
  have h2 := loadEntries_map_valid ms (.invalid :: rest) []
  simp only [List.append_nil] at h1
  refine ⟨rfl, rfl, ?_, ?_⟩
  · simp [load_state, h1, loadEntries]
  · simp [load_state, h2, loadEntries]

/-- C9 counterexample: the same membrane id in network mode yields
different default endpoints under two different per-process hash seeds —
the derived port is not a function of (id, mode) alone across runs. -/
theorem C9_network_port_seed_dependent :
    auto_detect_endpoint 0 "m1" "network" ≠
      auto_detect_endpoint 1 "m1" "network" := by decide

/-- C9 amended: the shared-volume and ipc defaults are deterministic in
(id, mode) alone — identical across runs — and the derivation is
deterministic within one process; but the network-mode port inherits the
per-process randomization of Python's string hash, so two runs can derive
different ports for the same id. -/
theorem C9_default_endpoint (seed seed2 : Nat) (mid : String) :
    auto_detect_endpoint seed mid "shared-volume" =
      auto_detect_endpoint seed2 mid "shared-volume" ∧
    auto_detect_endpoint seed mid "ipc" =
      auto_detect_endpoint seed2 mid "ipc" ∧
    (∃ s s2 m, auto_detect_endpoint s m "network" ≠
      auto_detect_endpoint s2 m "network") := by
  refine ⟨rfl, rfl, 0, 1, "m1", by decide⟩

/-- C10: deregister clears the heartbeat-running flag before the request
is posted, so it is cleared whatever the transport outcome or the
registry's answer; and from a stopped state only a successful register
with auto-heartbeat enabled starts the loop again. -/
theorem C10_deregister_stops_heartbeat (st : ClientState)
    (o : PostOutcome) (a : Bool) (o2 : PostOutcome) :
    (clientDeregister st o).1.heartbeat_running = false ∧
    ((clientRegister a ⟨false⟩ o2).1.heartbeat_running = true ↔
      o2 = .reply true ∧ a = true) := by
  constructor
  · cases o <;> rfl
  · cases o2 with
    | raised => simp [clientRegister]
    | reply s => cases s <;> cases a <;>
        simp [clientRegister, start_heartbeat]
